import Mathlib

/-!
# rknn_zero_copy_demo: the driver `main.cc` and the post-processing contract

The development embeds `src/rknn/rknn_api/examples/rknn_zero_copy_demo/src/main.cc`.

* `main` is a function from a `World` (everything the process observes from
  outside: the command line, the status codes and structures the RKNN SDK
  returns, the decoder result of `stbi_load`) to the exit status and the trace
  of library calls it issues, in program order.
* The C type `float` is kept abstract (`FloatOps`): the statements hold for any
  interpretation of the conversion `(float)i` and of the division.
* The counted loops run `n_input` or `n_output` times; the counter is an `int`,
  so the model is exact as long as the count fits into one.
* `printf` and `gettimeofday` are not recorded in the trace. Library calls
  whose result the program never inspects are recorded and return normally.
* `post_process` lives in `postprocess.cc`, which is not part of the sources
  at hand; the parts of it that are needed are modelled from the written
  specification in the second half and are marked as such.
-/

namespace Rknpu

/-! ## Machine integers -/

/-- Value of a `uint32_t` object holding the mathematical value `n`. -/
def uint32_of (n : Nat) : Nat := n % 2 ^ 32

/-- Conversion of a `uint32_t` value to `int` (two's complement, 32 bit). -/
def int_of_uint32 (n : Nat) : Int :=
  if n % 2 ^ 32 < 2 ^ 31 then ((n % 2 ^ 32 : Nat) : Int) else ((n % 2 ^ 32 : Nat) : Int) - 2 ^ 32

/-- Value read through a `uint8_t *` from a raw byte. -/
def uint8_of (raw : Nat) : Int := ((raw % 256 : Nat) : Int)

/-- Value read through an `int8_t *` from a raw byte (two's complement). -/
def int8_of (raw : Nat) : Int :=
  if raw % 256 < 128 then ((raw % 256 : Nat) : Int) else ((raw % 256 : Nat) : Int) - 256

/-! ## Floating point, kept abstract -/

/-- The two `float` operations `main` performs itself. -/
structure FloatOps (F : Type) where
  /-- The conversion `(float)i` of an `int`. -/
  ofInt : Int → F
  /-- The division of two `float` values. -/
  div : F → F → F

/-- The two macros of `postprocess.h` that `main` reads. -/
structure Consts (F : Type) where
  BOX_THRESH : F
  NMS_THRESH : F

/-! ## Data of `rknn_api.h` used by `main` -/

/-- The enumeration `rknn_tensor_format`; `other` stands for every enumerator
value that is neither of the two layouts. -/
inductive rknn_tensor_format where
  | RKNN_TENSOR_NCHW
  | RKNN_TENSOR_NHWC
  | other (raw : Nat)
  deriving DecidableEq, Repr

/-- The fields of `rknn_tensor_attr` that `main` and `load_image` read.
`dims`, `size` and `zp` are `uint32_t` fields. -/
structure rknn_tensor_attr (F : Type) where
  dims : Nat → Nat
  size : Nat
  fmt : rknn_tensor_format
  zp : Nat
  scale : F

/-- What `stbi_load` stores through its three out-pointers when it succeeds. -/
structure StbImage where
  width : Int
  height : Int
  channel : Int
  deriving DecidableEq, Repr

/-- Everything `main` observes from outside. -/
structure World (F : Type) where
  argc : Int
  /-- The value `atoi(argv[3])`. -/
  is_zerocopy : Int
  /-- Status of `rknn_init`. -/
  rknn_init_ret : Int
  /-- Status of `rknn_query(ctx, RKNN_QUERY_SDK_VERSION, ..)`. -/
  sdk_version_ret : Int
  /-- Status of `rknn_query(ctx, RKNN_QUERY_IN_OUT_NUM, ..)`. -/
  in_out_num_ret : Int
  n_input : Nat
  n_output : Nat
  /-- Status of `rknn_query(ctx, RKNN_QUERY_INPUT_ATTR, &input_attrs[i], ..)`
  and the contents of `input_attrs[i]` after the call. -/
  query_input_attr : Nat → Int × rknn_tensor_attr F
  /-- Status of `rknn_query(ctx, RKNN_QUERY_OUTPUT_ATTR, &output_attrs[i], ..)`
  and the contents of `output_attrs[i]` after the call. -/
  query_output_attr : Nat → Int × rknn_tensor_attr F
  /-- What a read of `input_attrs[0]` finds when the array has no element. -/
  stray_input_attr : rknn_tensor_attr F
  /-- Result of `stbi_load` for a requested channel count; `none` is `NULL`. -/
  stbi_load : Int → Option StbImage

/-- The array `input_attrs` once the query loop has run to its end. -/
def input_attrs {F : Type} (w : World F) (i : Nat) : rknn_tensor_attr F :=
  if i < w.n_input then (w.query_input_attr i).2 else w.stray_input_attr

/-- The array `output_attrs` once the query loop has run. -/
def output_attrs {F : Type} (w : World F) (i : Nat) : rknn_tensor_attr F :=
  (w.query_output_attr i).2

/-! ## `load_image` -/

/-- The three locals `req_height`, `req_width`, `req_channel` of `load_image`. -/
structure Req where
  req_height : Int
  req_width : Int
  req_channel : Int
  deriving DecidableEq, Repr

/-- The `switch (input_attr->fmt)` of `load_image`; `none` is the `default`
branch, which returns `NULL`. -/
def load_image_req {F : Type} (input_attr : rknn_tensor_attr F) : Option Req :=
  match input_attr.fmt with
  | .RKNN_TENSOR_NHWC =>
      some { req_height := int_of_uint32 (input_attr.dims 2)
             req_width := int_of_uint32 (input_attr.dims 1)
             req_channel := int_of_uint32 (input_attr.dims 0) }
  | .RKNN_TENSOR_NCHW =>
      some { req_height := int_of_uint32 (input_attr.dims 1)
             req_width := int_of_uint32 (input_attr.dims 0)
             req_channel := int_of_uint32 (input_attr.dims 2) }
  | .other _ => none

/-- What `load_image` stores through `org_height`, `org_width`, `org_ch`. -/
structure Loaded where
  org_height : Int
  org_width : Int
  org_ch : Int
  deriving DecidableEq, Repr

/-- The function `load_image`; `none` is a `NULL` result. -/
def load_image {F : Type} (stbi : Int → Option StbImage) (input_attr : rknn_tensor_attr F) :
    Option Loaded :=
  match load_image_req input_attr with
  | none => none
  | some r =>
    match stbi r.req_channel with
    | none => none
    | some img => some { org_height := img.height, org_width := img.width, org_ch := img.channel }

/-! ## The trace of `main` -/

/-- A zero-copy tensor memory: `inputs_mem[i]` or `outputs_mem[i]`. -/
inductive MemRef where
  | inputs_mem (i : Nat)
  | outputs_mem (i : Nat)
  deriving DecidableEq, Repr

/-- A tensor buffer handed to `post_process`: `outputs[i].buf` or
`outputs_mem[i]->logical_addr`, both cast to `uint8_t *`. -/
inductive BufRef where
  | outputs_buf (i : Nat)
  | outputs_mem_logical_addr (i : Nat)
  deriving DecidableEq, Repr

/-- The element type of the pointer a buffer is cast to at a call site. -/
inductive ElemType where
  | uint8_t
  | int8_t
  deriving DecidableEq, Repr

/-- A tensor argument of `post_process` as the call site writes it: the
`void *` buffer and the element type of the pointer it is cast to, as in
`(uint8_t *)outputs[0].buf`. -/
structure TensorPtr where
  buf : BufRef
  elem : ElemType
  deriving DecidableEq, Repr

/-- The arguments of one call of `post_process`, in the order of the call
(the result pointer `&detect_result_group` left out). -/
structure PostProcessArgs (F : Type) where
  input0 : TensorPtr
  input1 : TensorPtr
  input2 : TensorPtr
  model_in_h : Int
  model_in_w : Int
  conf_threshold : F
  nms_threshold : F
  scale_w : F
  scale_h : F
  qnt_zps : List Nat
  qnt_scales : List F

/-- Library calls of `main`, in the vocabulary of the source. -/
inductive Event (F : Type) where
  | load_model
  | rknn_init
  | rknn_query_sdk_version
  | rknn_query_in_out_num
  | rknn_query_input_attr (i : Nat)
  | rknn_query_output_attr (i : Nat)
  | cimg_load
  | load_image
  | rknn_create_mem (m : MemRef) (size : Nat)
  | RGA_init
  | rga_resize (src_w src_h : Int) (dst : Option MemRef) (dst_w dst_h : Int)
  | rknn_inputs_set
  | rknn_set_io_mem (m : MemRef)
  | rknn_run
  | rknn_outputs_get
  | post_process (a : PostProcessArgs F)
  | img_save
  | rknn_outputs_release
  | rknn_destroy
  | rknn_destroy_mem (m : MemRef)
  | RGA_deinit

/-- Exit status and trace of a run. -/
abbrev Run (F : Type) := Int × List (Event F)

/-- Prepends the calls issued so far to the rest of the run. -/
def emit {F : Type} (evs : List (Event F)) (r : Run F) : Run F := (r.1, evs ++ r.2)

/-- The loop over `input_attrs` (lines 289-300): queries attribute `i`,
`i+1`, .. for `k` more rounds; the flag is `false` when a query returned a
negative status and `main` returns `-1`. -/
def query_input_attrs {F : Type} (w : World F) : Nat → Nat → Bool × List (Event F)
  | 0, _ => (true, [])
  | k + 1, i =>
    if (w.query_input_attr i).1 < 0 then (false, [Event.rknn_query_input_attr i])
    else ((query_input_attrs w k (i + 1)).1,
          Event.rknn_query_input_attr i :: (query_input_attrs w k (i + 1)).2)

/-- The loop over `output_attrs` (lines 304-310): the status is assigned and
not inspected. -/
def query_output_attrs {F : Type} : Nat → Nat → List (Event F)
  | 0, _ => []
  | k + 1, i => Event.rknn_query_output_attr i :: query_output_attrs k (i + 1)

/-- The loop creating `inputs_mem` (lines 355-357). -/
def create_inputs_mem {F : Type} (w : World F) : Nat → Nat → List (Event F)
  | 0, _ => []
  | k + 1, i =>
    Event.rknn_create_mem (MemRef.inputs_mem i) (input_attrs w i).size
      :: create_inputs_mem w k (i + 1)

/-- The loop creating `outputs_mem` (lines 359-362). -/
def create_outputs_mem {F : Type} (w : World F) : Nat → Nat → List (Event F)
  | 0, _ => []
  | k + 1, i =>
    Event.rknn_create_mem (MemRef.outputs_mem i) (output_attrs w i).size
      :: create_outputs_mem w k (i + 1)

/-- The loop binding `outputs_mem` in zero-copy mode (lines 389-392). -/
def set_outputs_mem {F : Type} : Nat → Nat → List (Event F)
  | 0, _ => []
  | k + 1, i => Event.rknn_set_io_mem (MemRef.outputs_mem i) :: set_outputs_mem k (i + 1)

/-- The loop filling `out_scales` and `out_zps` (lines 416-420); `push_back`
appends at the end, the zero-point is converted to `uint32_t`. -/
def collect_qnt {F : Type} (w : World F) : Nat → Nat → List F × List Nat → List F × List Nat
  | 0, _, acc => acc
  | k + 1, i, acc =>
    collect_qnt w k (i + 1)
      (acc.1 ++ [(output_attrs w i).scale], acc.2 ++ [uint32_of (output_attrs w i).zp])

/-- The timing loop of the non-zero-copy branch (lines 461-471). -/
def loop_test_inputs_set {F : Type} (a : PostProcessArgs F) : Nat → List (Event F)
  | 0 => []
  | k + 1 =>
    Event.rknn_inputs_set :: Event.rknn_run :: Event.rknn_outputs_get :: Event.post_process a
      :: Event.rknn_outputs_release :: loop_test_inputs_set a k

/-- The timing loop of the zero-copy branch (lines 475-489). -/
def loop_test_io_mem {F : Type} (a : PostProcessArgs F) : Nat → List (Event F)
  | 0 => []
  | k + 1 =>
    Event.rknn_set_io_mem (MemRef.inputs_mem 0) :: Event.rknn_run :: Event.post_process a
      :: loop_test_io_mem a k

/-- The loop releasing `inputs_mem` (lines 498-501). -/
def destroy_inputs_mem {F : Type} : Nat → Nat → List (Event F)
  | 0, _ => []
  | k + 1, i => Event.rknn_destroy_mem (MemRef.inputs_mem i) :: destroy_inputs_mem k (i + 1)

/-- The loop releasing `outputs_mem` (lines 503-506). -/
def destroy_outputs_mem {F : Type} : Nat → Nat → List (Event F)
  | 0, _ => []
  | k + 1, i => Event.rknn_destroy_mem (MemRef.outputs_mem i) :: destroy_outputs_mem k (i + 1)

/-- The local `width` of `main` (lines 313-326). -/
def model_width {F : Type} (w : World F) : Int :=
  if (input_attrs w 0).fmt = rknn_tensor_format.RKNN_TENSOR_NCHW then
    int_of_uint32 ((input_attrs w 0).dims 0)
  else
    int_of_uint32 ((input_attrs w 0).dims 1)

/-- The local `height` of `main` (lines 314-326). -/
def model_height {F : Type} (w : World F) : Int :=
  if (input_attrs w 0).fmt = rknn_tensor_format.RKNN_TENSOR_NCHW then
    int_of_uint32 ((input_attrs w 0).dims 1)
  else
    int_of_uint32 ((input_attrs w 0).dims 2)

/-- The local `scale_w` of `main` (line 410). -/
def main_scale_w {F : Type} (ops : FloatOps F) (w : World F) (img : Loaded) : F :=
  ops.div (ops.ofInt (model_width w)) (ops.ofInt img.org_width)

/-- The local `scale_h` of `main` (line 411). -/
def main_scale_h {F : Type} (ops : FloatOps F) (w : World F) (img : Loaded) : F :=
  ops.div (ops.ofInt (model_height w)) (ops.ofInt img.org_height)

/-- The arguments of the `post_process` calls of `main` (lines 423-427,
467-468, 486-487): the buffers depend on the mode, the rest does not. Every
buffer is passed through a cast to `uint8_t *`. -/
def post_args {F : Type} (ops : FloatOps F) (c : Consts F) (w : World F) (img : Loaded) :
    PostProcessArgs F :=
  { input0 :=
      if w.is_zerocopy = 0 then { buf := BufRef.outputs_buf 0, elem := ElemType.uint8_t }
      else { buf := BufRef.outputs_mem_logical_addr 0, elem := ElemType.uint8_t }
    input1 :=
      if w.is_zerocopy = 0 then { buf := BufRef.outputs_buf 1, elem := ElemType.uint8_t }
      else { buf := BufRef.outputs_mem_logical_addr 1, elem := ElemType.uint8_t }
    input2 :=
      if w.is_zerocopy = 0 then { buf := BufRef.outputs_buf 2, elem := ElemType.uint8_t }
      else { buf := BufRef.outputs_mem_logical_addr 2, elem := ElemType.uint8_t }
    model_in_h := model_height w
    model_in_w := model_width w
    conf_threshold := c.BOX_THRESH
    nms_threshold := c.NMS_THRESH
    scale_w := main_scale_w ops w img
    scale_h := main_scale_h ops w img
    qnt_zps := (collect_qnt w w.n_output 0 ([], [])).2
    qnt_scales := (collect_qnt w w.n_output 0 ([], [])).1 }

/-- The constant `test_count` of the timing loop. -/
def test_count : Nat := 100

/-- Lines 364-520 of `main`: everything after a successful `load_image`. -/
def main_infer {F : Type} (ops : FloatOps F) (c : Consts F) (w : World F) (img : Loaded) :
    Run F :=
  emit [Event.RGA_init] <|
  emit (if w.is_zerocopy = 0 then
          [Event.rga_resize img.org_width img.org_height none (model_width w) (model_height w),
           Event.rknn_inputs_set]
        else
          Event.rga_resize img.org_width img.org_height (some (MemRef.inputs_mem 0))
              (model_width w) (model_height w)
            :: Event.rknn_set_io_mem (MemRef.inputs_mem 0)
            :: set_outputs_mem w.n_output 0) <|
  emit [Event.rknn_run] <|
  emit (if w.is_zerocopy = 0 then [Event.rknn_outputs_get] else []) <|
  emit [Event.post_process (post_args ops c w img)] <|
  emit [Event.img_save] <|
  emit (if w.is_zerocopy = 0 then [Event.rknn_outputs_release] else []) <|
  emit (if w.is_zerocopy = 0 then loop_test_inputs_set (post_args ops c w img) test_count
        else loop_test_io_mem (post_args ops c w img) test_count) <|
  emit [Event.rknn_destroy] <|
  emit (destroy_inputs_mem w.n_input 0) <|
  emit (destroy_outputs_mem w.n_output 0) <|
  emit [Event.RGA_deinit] <|
  (0, [])

/-- The function `main`. -/
def main {F : Type} (ops : FloatOps F) (c : Consts F) (w : World F) : Run F :=
  if w.argc ≠ 4 then (-1, []) else
  emit [Event.load_model, Event.rknn_init] <|
  if w.rknn_init_ret < 0 then (-1, []) else
  emit [Event.rknn_query_sdk_version] <|
  if w.sdk_version_ret < 0 then (-1, []) else
  emit [Event.rknn_query_in_out_num] <|
  if w.in_out_num_ret < 0 then (-1, []) else
  emit (query_input_attrs w w.n_input 0).2 <|
  if (query_input_attrs w w.n_input 0).1 = false then (-1, []) else
  emit (query_output_attrs w.n_output 0) <|
  emit [Event.cimg_load, Event.load_image] <|
  match load_image w.stbi_load (input_attrs w 0) with
  | none => (-1, [])
  | some img =>
    emit (create_inputs_mem w w.n_input 0) <|
    emit (create_outputs_mem w w.n_output 0) <|
    main_infer ops c w img

/-- The `post_process` calls of a trace, in order. -/
def postCalls {F : Type} : List (Event F) → List (PostProcessArgs F)
  | [] => []
  | Event.post_process a :: t => a :: postCalls t
  | _ :: t => postCalls t

/-- The number of `rknn_run` calls of a trace. -/
def runCount {F : Type} : List (Event F) → Nat
  | [] => 0
  | Event.rknn_run :: t => runCount t + 1
  | _ :: t => runCount t

/-- The `rga_resize` calls of a trace: source size, then destination size. -/
def resizeCalls {F : Type} : List (Event F) → List ((Int × Int) × (Int × Int))
  | [] => []
  | Event.rga_resize src_w src_h _ dst_w dst_h :: t =>
    ((src_w, src_h), (dst_w, dst_h)) :: resizeCalls t
  | _ :: t => resizeCalls t

/-- Calls that are neither inference, post-processing nor resizing. -/
def isPlain {F : Type} : Event F → Bool
  | .rknn_run => false
  | .post_process _ => false
  | .rga_resize _ _ _ _ _ => false
  | _ => true

/-- Whether a call takes the context `ctx` (or its address) as an argument. -/
def usesCtx {F : Type} : Event F → Bool
  | .rknn_init => true
  | .rknn_query_sdk_version => true
  | .rknn_query_in_out_num => true
  | .rknn_query_input_attr _ => true
  | .rknn_query_output_attr _ => true
  | .rknn_create_mem _ _ => true
  | .rknn_inputs_set => true
  | .rknn_set_io_mem _ => true
  | .rknn_run => true
  | .rknn_outputs_get => true
  | .rknn_outputs_release => true
  | .rknn_destroy => true
  | .rknn_destroy_mem _ => true
  | _ => false

/-- The part of a trace that follows the first `rknn_destroy`. -/
def afterDestroy {F : Type} : List (Event F) → List (Event F)
  | [] => []
  | Event.rknn_destroy :: t => t
  | _ :: t => afterDestroy t

/-- Whether some call after `rknn_destroy` still takes the context. -/
def ctxUsedAfterDestroy {F : Type} (t : List (Event F)) : Bool :=
  (afterDestroy t).any usesCtx

/-- Element `k` of a tensor argument as the callee reads it through the
pointer it is given: the raw byte behind the buffer, interpreted by the element
type of the pointer; `mem` is the raw byte content behind each buffer. -/
def read_input (mem : BufRef → List Nat) (p : TensorPtr) (k : Nat) : Int :=
  match p.elem with
  | ElemType.uint8_t => uint8_of ((mem p.buf).getD k 0)
  | ElemType.int8_t => int8_of ((mem p.buf).getD k 0)

/-! ## Post-processing, from the written specification

`post_process` is declared in `postprocess.h` and defined in `postprocess.cc`;
neither is among the sources at hand. The definitions of this section follow
the specification text, over the rationals. -/

/-- Modelled from the spec: the box of a candidate or a detection,
`(left, top, right, bottom)`; the type is declared in the missing
`postprocess.h`. -/
structure Box where
  left : ℚ
  top : ℚ
  right : ℚ
  bottom : ℚ
  deriving DecidableEq

/-- Modelled from the spec: the Candidate record of the data model (box in
resized-input coordinates, class index, confidence); its producer, the grid
decoder of the missing `postprocess.cc`, is not modelled. -/
structure Candidate where
  box : Box
  cls : Nat
  conf : ℚ
  deriving DecidableEq

/-- Modelled from the spec: the area of an axis-aligned box, part of the IoU
of the missing `postprocess.cc`; an inverted side counts as empty. -/
def Box.area (b : Box) : ℚ := max 0 (b.right - b.left) * max 0 (b.bottom - b.top)

/-- Modelled from the spec: the intersection area of two boxes by axis-aligned
clipping, part of the IoU of the missing `postprocess.cc`. -/
def intersection (a b : Box) : ℚ :=
  max 0 (min a.right b.right - max a.left b.left)
    * max 0 (min a.bottom b.bottom - max a.top b.top)

/-- Modelled from the spec: the IoU of the missing `postprocess.cc`,
intersection area over union area, and `0` where the union is empty. -/
def IoU (a b : Box) : ℚ :=
  if a.area + b.area - intersection a b = 0 then 0
  else intersection a b / (a.area + b.area - intersection a b)

/-- Modelled from the spec: step 1 of the suppressor of the missing
`postprocess.cc`, a stable sort by descending confidence. -/
def sort_by_confidence (group : List Candidate) : List Candidate :=
  group.insertionSort (fun a b => b.conf ≤ a.conf)

/-- Modelled from the spec: steps 2 and 3 of the suppressor of the missing
`postprocess.cc`: the first remaining candidate is kept, every remaining
candidate whose IoU with it exceeds the threshold is removed, and the same is
done with what remains. -/
def greedy_select (nms_threshold : ℚ) : List Candidate → List Candidate
  | [] => []
  | c :: rest =>
    c :: greedy_select nms_threshold
      (rest.filter (fun d => decide (¬ nms_threshold < IoU c.box d.box)))
termination_by l => l.length
decreasing_by
  simp only [List.length_cons]
  exact Nat.lt_succ_of_le (List.length_filter_le _ _)

/-- Modelled from the spec: the suppressor of the missing `postprocess.cc` on
the candidates of one class. -/
def nms_group (nms_threshold : ℚ) (group : List Candidate) : List Candidate :=
  greedy_select nms_threshold (sort_by_confidence group)

/-- Modelled from the spec: the class labels that occur among the candidates,
each once; the grouping step of the missing `postprocess.cc`. -/
def class_labels (cands : List Candidate) : List Nat := (cands.map (fun c => c.cls)).dedup

/-- Modelled from the spec: the non-max suppressor of the missing
`postprocess.cc`: the candidates are grouped by class, each group is
suppressed on its own and the kept candidates are concatenated. -/
def nms (nms_threshold : ℚ) (cands : List Candidate) : List Candidate :=
  (class_labels cands).flatMap
    (fun k => nms_group nms_threshold (cands.filter (fun c => decide (c.cls = k))))

/-- A float model over the rationals. -/
def ratOps : FloatOps ℚ := { ofInt := fun i => (i : ℚ), div := fun a b => a / b }

/-- Sample values for the two macros. -/
def ratConsts : Consts ℚ := { BOX_THRESH := 1 / 2, NMS_THRESH := 3 / 5 }

/-- An NHWC input attribute of a 640 x 640 x 3 model. -/
def nhwc_attr : rknn_tensor_attr ℚ :=
  { dims := fun k => if k = 0 then 3 else if k = 1 then 640 else if k = 2 then 640 else 1
    size := 1228800
    fmt := rknn_tensor_format.RKNN_TENSOR_NHWC
    zp := 0
    scale := 1 }

/-- An input attribute whose layout is neither NCHW nor NHWC. -/
def odd_attr : rknn_tensor_attr ℚ :=
  { dims := fun k => if k = 0 then 3 else if k = 1 then 640 else if k = 2 then 640 else 1
    size := 1228800
    fmt := rknn_tensor_format.other 2
    zp := 0
    scale := 1 }

/-- The attribute of output tensor `i` in the sample runs. -/
def sample_output_attr (i : Nat) : rknn_tensor_attr ℚ :=
  { dims := fun _ => 1
    size := 100
    fmt := rknn_tensor_format.RKNN_TENSOR_NCHW
    zp := 100 + i
    scale := 1 / ((i : ℚ) + 2) }

/-- A run on a 1280 x 960 picture in which every call succeeds, with the given
flag, number of outputs and status of the output-attribute queries. -/
def sample_world (flag : Int) (n_output : Nat) (output_query_ret : Int) : World ℚ :=
  { argc := 4
    is_zerocopy := flag
    rknn_init_ret := 0
    sdk_version_ret := 0
    in_out_num_ret := 0
    n_input := 1
    n_output := n_output
    query_input_attr := fun _ => (0, nhwc_attr)
    query_output_attr := fun i => (output_query_ret, sample_output_attr i)
    stray_input_attr := nhwc_attr
    stbi_load := fun _ => some { width := 1280, height := 960, channel := 3 } }

/-- A run in which every call succeeds but the input attribute has a layout
that is neither NCHW nor NHWC. -/
def odd_world : World ℚ :=
  { argc := 4
    is_zerocopy := 0
    rknn_init_ret := 0
    sdk_version_ret := 0
    in_out_num_ret := 0
    n_input := 1
    n_output := 3
    query_input_attr := fun _ => (0, odd_attr)
    query_output_attr := fun i => (0, sample_output_attr i)
    stray_input_attr := odd_attr
    stbi_load := fun _ => some { width := 1280, height := 960, channel := 3 } }

/-- The picture of the sample runs as `load_image` reports it. -/
def sample_loaded : Loaded := { org_height := 960, org_width := 1280, org_ch := 3 }

/-- Two candidates of one class whose IoU is exactly one half. -/
def touching_pair : List Candidate :=
  [ { box := { left := 0, top := 0, right := 2, bottom := 2 }, cls := 0, conf := 9 / 10 },
    { box := { left := 0, top := 0, right := 1, bottom := 2 }, cls := 0, conf := 8 / 10 } ]

/-! ## The `post_process` calls of a run -/

theorem postCalls_append {F : Type} (l₁ l₂ : List (Event F)) :
    postCalls (l₁ ++ l₂) = postCalls l₁ ++ postCalls l₂ := by
  induction l₁ with
  | nil => rfl
  | cons e t ih => cases e <;> simp [postCalls, ih]

theorem postCalls_emit {F : Type} (evs : List (Event F)) (r : Run F) :
    postCalls (emit evs r).2 = postCalls evs ++ postCalls r.2 := by
  simp [emit, postCalls_append]

theorem emit_fst {F : Type} (evs : List (Event F)) (r : Run F) : (emit evs r).1 = r.1 := rfl

theorem postCalls_query_input_attrs {F : Type} (w : World F) (k i : Nat) :
    postCalls (query_input_attrs w k i).2 = [] := by
  induction k generalizing i with
  | zero => rfl
  | succ k ih =>
    unfold query_input_attrs
    split
    · rfl
    · simpa [postCalls] using ih (i + 1)

theorem postCalls_query_output_attrs {F : Type} (k i : Nat) :
    postCalls (query_output_attrs k i : List (Event F)) = [] := by
  induction k generalizing i with
  | zero => rfl
  | succ k ih => simpa [query_output_attrs, postCalls] using ih (i + 1)

theorem postCalls_create_inputs_mem {F : Type} (w : World F) (k i : Nat) :
    postCalls (create_inputs_mem w k i) = [] := by
  induction k generalizing i with
  | zero => rfl
  | succ k ih => simpa [create_inputs_mem, postCalls] using ih (i + 1)

theorem postCalls_create_outputs_mem {F : Type} (w : World F) (k i : Nat) :
    postCalls (create_outputs_mem w k i) = [] := by
  induction k generalizing i with
  | zero => rfl
  | succ k ih => simpa [create_outputs_mem, postCalls] using ih (i + 1)

theorem postCalls_set_outputs_mem {F : Type} (k i : Nat) :
    postCalls (set_outputs_mem k i : List (Event F)) = [] := by
  induction k generalizing i with
  | zero => rfl
  | succ k ih => simpa [set_outputs_mem, postCalls] using ih (i + 1)

theorem postCalls_destroy_inputs_mem {F : Type} (k i : Nat) :
    postCalls (destroy_inputs_mem k i : List (Event F)) = [] := by
  induction k generalizing i with
  | zero => rfl
  | succ k ih => simpa [destroy_inputs_mem, postCalls] using ih (i + 1)

theorem postCalls_destroy_outputs_mem {F : Type} (k i : Nat) :
    postCalls (destroy_outputs_mem k i : List (Event F)) = [] := by
  induction k generalizing i with
  | zero => rfl
  | succ k ih => simpa [destroy_outputs_mem, postCalls] using ih (i + 1)

theorem postCalls_loop_test_inputs_set {F : Type} (a : PostProcessArgs F) (k : Nat) :
    postCalls (loop_test_inputs_set a k) = List.replicate k a := by
  induction k with
  | zero => rfl
  | succ k ih => simp [loop_test_inputs_set, postCalls, ih, List.replicate_succ]

theorem postCalls_loop_test_io_mem {F : Type} (a : PostProcessArgs F) (k : Nat) :
    postCalls (loop_test_io_mem a k) = List.replicate k a := by
  induction k with
  | zero => rfl
  | succ k ih => simp [loop_test_io_mem, postCalls, ih, List.replicate_succ]

/-- Once the picture is loaded, `main` calls `post_process` once and then
`test_count` more times, always with the arguments `post_args`. -/
theorem postCalls_main_infer {F : Type} (ops : FloatOps F) (c : Consts F) (w : World F)
    (img : Loaded) :
    postCalls (main_infer ops c w img).2
      = post_args ops c w img :: List.replicate test_count (post_args ops c w img) := by
  unfold main_infer
  by_cases hz : w.is_zerocopy = 0
  · simp only [hz, postCalls_emit, if_true, postCalls_loop_test_inputs_set,
      postCalls_destroy_inputs_mem, postCalls_destroy_outputs_mem]
    simp [postCalls]
  · simp only [hz, postCalls_emit, if_false, postCalls_loop_test_io_mem,
      postCalls_destroy_inputs_mem, postCalls_destroy_outputs_mem]
    simp [postCalls, postCalls_set_outputs_mem]

theorem main_infer_fst {F : Type} (ops : FloatOps F) (c : Consts F) (w : World F)
    (img : Loaded) : (main_infer ops c w img).1 = 0 := rfl

/-! ## Inference and resize calls of a run -/

theorem runCount_append {F : Type} (l₁ l₂ : List (Event F)) :
    runCount (l₁ ++ l₂) = runCount l₁ + runCount l₂ := by
  induction l₁ with
  | nil => simp [runCount]
  | cons e t ih =>
    cases e <;> simp [runCount, ih]
    omega

theorem resizeCalls_append {F : Type} (l₁ l₂ : List (Event F)) :
    resizeCalls (l₁ ++ l₂) = resizeCalls l₁ ++ resizeCalls l₂ := by
  induction l₁ with
  | nil => rfl
  | cons e t ih => cases e <;> simp [resizeCalls, ih]

theorem runCount_emit {F : Type} (evs : List (Event F)) (r : Run F) :
    runCount (emit evs r).2 = runCount evs + runCount r.2 := by
  simp [emit, runCount_append]

theorem resizeCalls_emit {F : Type} (evs : List (Event F)) (r : Run F) :
    resizeCalls (emit evs r).2 = resizeCalls evs ++ resizeCalls r.2 := by
  simp [emit, resizeCalls_append]

theorem runCount_of_plain {F : Type} (l : List (Event F)) (h : ∀ e ∈ l, isPlain e = true) :
    runCount l = 0 := by
  induction l with
  | nil => rfl
  | cons e t ih =>
    have he := h e (List.mem_cons_self _ _)
    have ht := ih (fun x hx => h x (List.mem_cons_of_mem _ hx))
    cases e <;> simp_all [runCount, isPlain]

theorem resizeCalls_of_plain {F : Type} (l : List (Event F)) (h : ∀ e ∈ l, isPlain e = true) :
    resizeCalls l = [] := by
  induction l with
  | nil => rfl
  | cons e t ih =>
    have he := h e (List.mem_cons_self _ _)
    have ht := ih (fun x hx => h x (List.mem_cons_of_mem _ hx))
    cases e <;> simp_all [resizeCalls, isPlain]

theorem plain_query_input_attrs {F : Type} (w : World F) (k i : Nat) :
    ∀ e ∈ (query_input_attrs w k i).2, isPlain e = true := by
  induction k generalizing i with
  | zero => intro e he; cases he
  | succ k ih =>
    unfold query_input_attrs
    split
    · intro e he
      rw [List.mem_singleton.mp he]; rfl
    · intro e he
      rcases List.mem_cons.mp he with h | h
      · rw [h]; rfl
      · exact ih (i + 1) e h

theorem plain_query_output_attrs {F : Type} (k i : Nat) :
    ∀ e ∈ (query_output_attrs k i : List (Event F)), isPlain e = true := by
  induction k generalizing i with
  | zero => intro e he; cases he
  | succ k ih =>
    intro e he
    rcases List.mem_cons.mp he with h | h
    · rw [h]; rfl
    · exact ih (i + 1) e h

theorem plain_create_inputs_mem {F : Type} (w : World F) (k i : Nat) :
    ∀ e ∈ create_inputs_mem w k i, isPlain e = true := by
  induction k generalizing i with
  | zero => intro e he; cases he
  | succ k ih =>
    intro e he
    rcases List.mem_cons.mp he with h | h
    · rw [h]; rfl
    · exact ih (i + 1) e h

theorem plain_create_outputs_mem {F : Type} (w : World F) (k i : Nat) :
    ∀ e ∈ create_outputs_mem w k i, isPlain e = true := by
  induction k generalizing i with
  | zero => intro e he; cases he
  | succ k ih =>
    intro e he
    rcases List.mem_cons.mp he with h | h
    · rw [h]; rfl
    · exact ih (i + 1) e h

theorem plain_set_outputs_mem {F : Type} (k i : Nat) :
    ∀ e ∈ (set_outputs_mem k i : List (Event F)), isPlain e = true := by
  induction k generalizing i with
  | zero => intro e he; cases he
  | succ k ih =>
    intro e he
    rcases List.mem_cons.mp he with h | h
    · rw [h]; rfl
    · exact ih (i + 1) e h

theorem plain_destroy_inputs_mem {F : Type} (k i : Nat) :
    ∀ e ∈ (destroy_inputs_mem k i : List (Event F)), isPlain e = true := by
  induction k generalizing i with
  | zero => intro e he; cases he
  | succ k ih =>
    intro e he
    rcases List.mem_cons.mp he with h | h
    · rw [h]; rfl
    · exact ih (i + 1) e h

theorem plain_destroy_outputs_mem {F : Type} (k i : Nat) :
    ∀ e ∈ (destroy_outputs_mem k i : List (Event F)), isPlain e = true := by
  induction k generalizing i with
  | zero => intro e he; cases he
  | succ k ih =>
    intro e he
    rcases List.mem_cons.mp he with h | h
    · rw [h]; rfl
    · exact ih (i + 1) e h

theorem runCount_loop_test_inputs_set {F : Type} (a : PostProcessArgs F) (k : Nat) :
    runCount (loop_test_inputs_set a k) = k := by
  induction k with
  | zero => rfl
  | succ k ih => simp [loop_test_inputs_set, runCount, ih]

theorem runCount_loop_test_io_mem {F : Type} (a : PostProcessArgs F) (k : Nat) :
    runCount (loop_test_io_mem a k) = k := by
  induction k with
  | zero => rfl
  | succ k ih => simp [loop_test_io_mem, runCount, ih]

theorem resizeCalls_loop_test_inputs_set {F : Type} (a : PostProcessArgs F) (k : Nat) :
    resizeCalls (loop_test_inputs_set a k) = [] := by
  induction k with
  | zero => rfl
  | succ k ih => simp [loop_test_inputs_set, resizeCalls, ih]

theorem resizeCalls_loop_test_io_mem {F : Type} (a : PostProcessArgs F) (k : Nat) :
    resizeCalls (loop_test_io_mem a k) = [] := by
  induction k with
  | zero => rfl
  | succ k ih => simp [loop_test_io_mem, resizeCalls, ih]

/-- Once the picture is loaded, `main` runs inference once and then
`test_count` more times. -/
theorem runCount_main_infer {F : Type} (ops : FloatOps F) (c : Consts F) (w : World F)
    (img : Loaded) : runCount (main_infer ops c w img).2 = test_count + 1 := by
  unfold main_infer
  by_cases hz : w.is_zerocopy = 0
  · simp only [hz, runCount_emit, if_true, runCount_loop_test_inputs_set,
      runCount_of_plain _ (plain_destroy_inputs_mem _ _),
      runCount_of_plain _ (plain_destroy_outputs_mem _ _)]
    simp [runCount]
    omega
  · simp only [hz, runCount_emit, if_false, runCount_loop_test_io_mem,
      runCount_of_plain _ (plain_destroy_inputs_mem _ _),
      runCount_of_plain _ (plain_destroy_outputs_mem _ _)]
    simp [runCount, runCount_of_plain _ (plain_set_outputs_mem _ _)]
    omega

/-- Once the picture is loaded, `main` resizes it once, from the size of the
picture to the model-input size. -/
theorem resizeCalls_main_infer {F : Type} (ops : FloatOps F) (c : Consts F) (w : World F)
    (img : Loaded) :
    resizeCalls (main_infer ops c w img).2
      = [((img.org_width, img.org_height), (model_width w, model_height w))] := by
  unfold main_infer
  by_cases hz : w.is_zerocopy = 0
  · simp only [hz, resizeCalls_emit, if_true, resizeCalls_loop_test_inputs_set,
      resizeCalls_of_plain _ (plain_destroy_inputs_mem _ _),
      resizeCalls_of_plain _ (plain_destroy_outputs_mem _ _)]
    simp [resizeCalls]
  · simp only [hz, resizeCalls_emit, if_false, resizeCalls_loop_test_io_mem,
      resizeCalls_of_plain _ (plain_destroy_inputs_mem _ _),
      resizeCalls_of_plain _ (plain_destroy_outputs_mem _ _)]
    simp [resizeCalls, resizeCalls_of_plain _ (plain_set_outputs_mem _ _)]

/-- The two ways a run of `main` ends. Either it returns `-1` and has issued
no resize, no inference and no `post_process`; or `load_image` succeeded, it
returns `0`, and it has resized the picture once, run inference
`test_count + 1` times and called `post_process` as often. -/
theorem main_cases {F : Type} (ops : FloatOps F) (c : Consts F) (w : World F) :
    ((main ops c w).1 = -1 ∧ postCalls (main ops c w).2 = [] ∧ runCount (main ops c w).2 = 0 ∧
      resizeCalls (main ops c w).2 = []) ∨
    ∃ img, load_image w.stbi_load (input_attrs w 0) = some img ∧
      (main ops c w).1 = 0 ∧
      postCalls (main ops c w).2
        = post_args ops c w img :: List.replicate test_count (post_args ops c w img) ∧
      runCount (main ops c w).2 = test_count + 1 ∧
      resizeCalls (main ops c w).2
        = [((img.org_width, img.org_height), (model_width w, model_height w))] := by
  unfold main
  split_ifs with h1 h2 h3 h4 h5
  · left; exact ⟨rfl, rfl, rfl, rfl⟩
  · left; exact ⟨rfl, rfl, rfl, rfl⟩
  · left; exact ⟨rfl, rfl, rfl, rfl⟩
  · left; exact ⟨rfl, rfl, rfl, rfl⟩
  · left
    refine ⟨rfl, ?_, ?_, ?_⟩
    · simp only [postCalls_emit, postCalls_query_input_attrs]
      rfl
    · simp only [runCount_emit, runCount_of_plain _ (plain_query_input_attrs _ _ _)]
      rfl
    · simp only [resizeCalls_emit, resizeCalls_of_plain _ (plain_query_input_attrs _ _ _)]
      rfl
  · split
    · left
      refine ⟨rfl, ?_, ?_, ?_⟩
      · simp only [postCalls_emit, postCalls_query_input_attrs, postCalls_query_output_attrs]
        rfl
      · simp only [runCount_emit, runCount_of_plain _ (plain_query_input_attrs _ _ _),
          runCount_of_plain _ (plain_query_output_attrs _ _)]
        rfl
      · simp only [resizeCalls_emit, resizeCalls_of_plain _ (plain_query_input_attrs _ _ _),
          resizeCalls_of_plain _ (plain_query_output_attrs _ _)]
        rfl
    · rename_i img himg
      right
      refine ⟨img, himg, rfl, ?_, ?_, ?_⟩
      · rw [postCalls_emit, postCalls_emit, postCalls_emit, postCalls_emit, postCalls_emit,
          postCalls_emit, postCalls_emit, postCalls_emit, postCalls_main_infer,
          postCalls_query_input_attrs, postCalls_query_output_attrs,
          postCalls_create_inputs_mem, postCalls_create_outputs_mem]
        rfl
      · rw [runCount_emit, runCount_emit, runCount_emit, runCount_emit, runCount_emit,
          runCount_emit, runCount_emit, runCount_emit, runCount_main_infer,
          runCount_of_plain _ (plain_query_input_attrs _ _ _),
          runCount_of_plain _ (plain_query_output_attrs _ _),
          runCount_of_plain _ (plain_create_inputs_mem _ _ _),
          runCount_of_plain _ (plain_create_outputs_mem _ _ _)]
        simp [runCount]
      · rw [resizeCalls_emit, resizeCalls_emit, resizeCalls_emit, resizeCalls_emit,
          resizeCalls_emit, resizeCalls_emit, resizeCalls_emit, resizeCalls_emit,
          resizeCalls_main_infer,
          resizeCalls_of_plain _ (plain_query_input_attrs _ _ _),
          resizeCalls_of_plain _ (plain_query_output_attrs _ _),
          resizeCalls_of_plain _ (plain_create_inputs_mem _ _ _),
          resizeCalls_of_plain _ (plain_create_outputs_mem _ _ _)]
        rfl

/-- Every `post_process` call of a run carries the arguments `post_args` of
the loaded picture. -/
theorem mem_postCalls_main {F : Type} (ops : FloatOps F) (c : Consts F) (w : World F)
    (a : PostProcessArgs F) (h : a ∈ postCalls (main ops c w).2) :
    ∃ img, load_image w.stbi_load (input_attrs w 0) = some img ∧ a = post_args ops c w img ∧
      resizeCalls (main ops c w).2
        = [((img.org_width, img.org_height), (model_width w, model_height w))] := by
  rcases main_cases ops c w with ⟨_, h0, _⟩ | ⟨img, himg, _, hp, _, hr⟩
  · rw [h0] at h; cases h
  · rw [hp] at h
    rcases List.mem_cons.mp h with h | h
    · exact ⟨img, himg, h, hr⟩
    · exact ⟨img, himg, List.eq_of_mem_replicate h, hr⟩

/-! ## The calibration arrays -/

theorem collect_qnt_eq {F : Type} (w : World F) (k i : Nat) (acc : List F × List Nat) :
    collect_qnt w k i acc =
      (acc.1 ++ (List.range k).map (fun j => (output_attrs w (i + j)).scale),
       acc.2 ++ (List.range k).map (fun j => uint32_of (output_attrs w (i + j)).zp)) := by
  induction k generalizing i acc with
  | zero => simp [collect_qnt]
  | succ k ih =>
    rw [collect_qnt, ih, List.range_succ_eq_map]
    simp [Function.comp_def, Nat.add_assoc, Nat.add_comm 1]

theorem post_args_qnt_zps {F : Type} (ops : FloatOps F) (c : Consts F) (w : World F)
    (img : Loaded) :
    (post_args ops c w img).qnt_zps
      = (List.range w.n_output).map (fun j => uint32_of (output_attrs w j).zp) := by
  simp [post_args, collect_qnt_eq]

theorem post_args_qnt_scales {F : Type} (ops : FloatOps F) (c : Consts F) (w : World F)
    (img : Loaded) :
    (post_args ops c w img).qnt_scales
      = (List.range w.n_output).map (fun j => (output_attrs w j).scale) := by
  simp [post_args, collect_qnt_eq]

/-! ## The sample runs -/

theorem load_image_sample (flag : Int) (n : Nat) (r : Int) :
    load_image (sample_world flag n r).stbi_load (input_attrs (sample_world flag n r) 0)
      = some sample_loaded := by
  rfl

/-- The sample run gets through: exit status `0` and `test_count + 1` calls
of `post_process` and of `rknn_run`. -/
theorem main_sample (flag : Int) (n : Nat) (r : Int) :
    (main ratOps ratConsts (sample_world flag n r)).1 = 0 ∧
    postCalls (main ratOps ratConsts (sample_world flag n r)).2
      = post_args ratOps ratConsts (sample_world flag n r) sample_loaded
        :: List.replicate test_count
            (post_args ratOps ratConsts (sample_world flag n r) sample_loaded) ∧
    runCount (main ratOps ratConsts (sample_world flag n r)).2 = test_count + 1 := by
  have hfst : (main ratOps ratConsts (sample_world flag n r)).1 = 0 := rfl
  rcases main_cases ratOps ratConsts (sample_world flag n r) with
    ⟨h, _⟩ | ⟨img, himg, _, hp, hr, _⟩
  · rw [hfst] at h; cases h
  · rw [load_image_sample] at himg
    cases himg
    exact ⟨hfst, hp, hr⟩

theorem mem_postCalls_sample (flag : Int) (n : Nat) (r : Int) :
    post_args ratOps ratConsts (sample_world flag n r) sample_loaded
      ∈ postCalls (main ratOps ratConsts (sample_world flag n r)).2 := by
  rw [(main_sample flag n r).2.1]
  exact List.mem_cons_self _ _

/-! ## The status checks of the setup phase -/

theorem query_input_attrs_fails {F : Type} (w : World F) (k i : Nat)
    (h : ∃ j, j < k ∧ (w.query_input_attr (i + j)).1 < 0) :
    (query_input_attrs w k i).1 = false := by
  induction k generalizing i with
  | zero =>
    obtain ⟨j, hj, _⟩ := h
    exact absurd hj (Nat.not_lt_zero _)
  | succ k ih =>
    unfold query_input_attrs
    split
    · rfl
    · rename_i hok
      obtain ⟨j, hj, hneg⟩ := h
      cases j with
      | zero => exact absurd hneg hok
      | succ j =>
        apply ih (i + 1)
        refine ⟨j, Nat.lt_of_succ_lt_succ hj, ?_⟩
        have e : i + 1 + j = i + (j + 1) := by omega
        rw [e]
        exact hneg

/-- The checked calls of the setup phase: when `rknn_init`, the SDK-version
query, the in/out-number query or the query of some input attribute returns a
negative status, `main` returns `-1` and reaches neither `rknn_run` nor
`post_process`. -/
theorem main_checked_failure {F : Type} (ops : FloatOps F) (c : Consts F) (w : World F)
    (h : w.rknn_init_ret < 0 ∨ w.sdk_version_ret < 0 ∨ w.in_out_num_ret < 0 ∨
      ∃ j, j < w.n_input ∧ (w.query_input_attr j).1 < 0) :
    (main ops c w).1 = -1 ∧ runCount (main ops c w).2 = 0 ∧ postCalls (main ops c w).2 = [] := by
  have hfst : (main ops c w).1 = -1 := by
    unfold main
    split_ifs with h1 h2 h3 h4 h5
    · rfl
    · rfl
    · rfl
    · rfl
    · rfl
    · exfalso
      rcases h with h | h | h | ⟨j, hj, hneg⟩
      · exact h2 h
      · exact h3 h
      · exact h4 h
      · apply h5
        apply query_input_attrs_fails
        exact ⟨j, hj, by rw [Nat.zero_add]; exact hneg⟩
  rcases main_cases ops c w with ⟨_, hp, hr, _⟩ | ⟨img, _, h0, _⟩
  · exact ⟨hfst, hr, hp⟩
  · rw [hfst] at h0
    cases h0

/-! ## Claims about `main` -/

/-- C1: on every run of `main` that reaches post-processing, the picture was
decoded by `stbi_load` to some width and height, it was resized once from that
size to the model-input `width` x `height`, and the scale factors handed to
`post_process` are `scale_w = (float)width / img_width` and
`scale_h = (float)height / img_height`: model-input size over picture size,
width with width and height with height. -/
theorem main_scale_factors {F : Type} (ops : FloatOps F) (c : Consts F) (w : World F)
    (a : PostProcessArgs F) (h : a ∈ postCalls (main ops c w).2) :
    ∃ r simg, load_image_req (input_attrs w 0) = some r ∧
      w.stbi_load r.req_channel = some simg ∧
      resizeCalls (main ops c w).2
        = [((simg.width, simg.height), (model_width w, model_height w))] ∧
      a.scale_w = ops.div (ops.ofInt (model_width w)) (ops.ofInt simg.width) ∧
      a.scale_h = ops.div (ops.ofInt (model_height w)) (ops.ofInt simg.height) := by
  obtain ⟨img, himg, ha, hr⟩ := mem_postCalls_main ops c w a h
  unfold load_image at himg
  cases hreq : load_image_req (input_attrs w 0) with
  | none => rw [hreq] at himg; cases himg
  | some r =>
    rw [hreq] at himg
    cases hst : w.stbi_load r.req_channel with
    | none => simp [hst] at himg
    | some simg =>
      simp only [hst, Option.some.injEq] at himg
      subst himg
      subst ha
      exact ⟨r, simg, rfl, hst, hr, rfl, rfl⟩

/-- Witness of C1: the sample run on a 1280 x 960 picture with a 640 x 640
model, where the factors are 640 / 1280 and 640 / 960. -/
theorem main_scale_factors_witness :
    (∃ r simg, load_image_req (input_attrs (sample_world 0 3 0) 0) = some r ∧
      (sample_world 0 3 0).stbi_load r.req_channel = some simg ∧
      resizeCalls (main ratOps ratConsts (sample_world 0 3 0)).2
        = [((simg.width, simg.height),
            (model_width (sample_world 0 3 0), model_height (sample_world 0 3 0)))] ∧
      (post_args ratOps ratConsts (sample_world 0 3 0) sample_loaded).scale_w
        = ratOps.div (ratOps.ofInt (model_width (sample_world 0 3 0))) (ratOps.ofInt simg.width) ∧
      (post_args ratOps ratConsts (sample_world 0 3 0) sample_loaded).scale_h
        = ratOps.div (ratOps.ofInt (model_height (sample_world 0 3 0)))
            (ratOps.ofInt simg.height)) ∧
    (post_args ratOps ratConsts (sample_world 0 3 0) sample_loaded).scale_w = 1 / 2 ∧
    (post_args ratOps ratConsts (sample_world 0 3 0) sample_loaded).scale_h = 2 / 3 :=
  ⟨main_scale_factors ratOps ratConsts (sample_world 0 3 0) _ (mem_postCalls_sample 0 3 0),
   by
    have hw : model_width (sample_world 0 3 0) = 640 := by decide
    simp only [post_args, main_scale_w, hw, ratOps, sample_loaded]
    norm_num,
   by
    have hh : model_height (sample_world 0 3 0) = 640 := by decide
    simp only [post_args, main_scale_h, hh, ratOps, sample_loaded]
    norm_num⟩

/-- C2: on every run of `main` that reaches post-processing, with zero-points
that are `uint32_t` values, the arrays `out_zps` and `out_scales` handed to
`post_process` both have length `n_output`, and for every `i < n_output` entry
`i` of `out_zps` is the zero-point of output tensor `i`, unchanged, and entry
`i` of `out_scales` is its scale. -/
theorem main_calibration_arrays {F : Type} (ops : FloatOps F) (c : Consts F) (w : World F)
    (a : PostProcessArgs F) (h : a ∈ postCalls (main ops c w).2)
    (hzp : ∀ i, i < w.n_output → (output_attrs w i).zp < 2 ^ 32) :
    a.qnt_zps.length = w.n_output ∧ a.qnt_scales.length = w.n_output ∧
    ∀ i, i < w.n_output →
      a.qnt_zps[i]? = some (output_attrs w i).zp ∧
      a.qnt_scales[i]? = some (output_attrs w i).scale := by
  obtain ⟨img, _, ha, _⟩ := mem_postCalls_main ops c w a h
  subst ha
  rw [post_args_qnt_zps, post_args_qnt_scales]
  refine ⟨by simp, by simp, ?_⟩
  intro i hi
  have hmod : uint32_of (output_attrs w i).zp = (output_attrs w i).zp :=
    Nat.mod_eq_of_lt (hzp i hi)
  simp [List.getElem?_map, List.getElem?_range hi, hmod]

/-- Witness of C2: the sample run with three outputs, whose zero-points are
100, 101 and 102. -/
theorem main_calibration_arrays_witness :
    (post_args ratOps ratConsts (sample_world 0 3 0) sample_loaded).qnt_zps.length = 3 ∧
    (post_args ratOps ratConsts (sample_world 0 3 0) sample_loaded).qnt_scales.length = 3 ∧
    ∀ i, i < 3 →
      (post_args ratOps ratConsts (sample_world 0 3 0) sample_loaded).qnt_zps[i]?
        = some (output_attrs (sample_world 0 3 0) i).zp ∧
      (post_args ratOps ratConsts (sample_world 0 3 0) sample_loaded).qnt_scales[i]?
        = some (output_attrs (sample_world 0 3 0) i).scale :=
  main_calibration_arrays ratOps ratConsts (sample_world 0 3 0) _ (mem_postCalls_sample 0 3 0)
    (by
      intro i hi
      have h3 : i < 3 := hi
      show 100 + i < 2 ^ 32
      omega)

/-- C4: for every flag value, a run of `main` that returns `0` has called
`post_process` `1 + test_count = 101` times, and every call of a run receives
model-input height then width, `BOX_THRESH` then `NMS_THRESH`, then the
`scale_w`, `scale_h`, zero-point array and scale array that `main` computed
once; any two calls of one run agree on all of them. -/
theorem main_post_process_arguments {F : Type} (ops : FloatOps F) (c : Consts F)
    (w : World F) :
    ((main ops c w).1 = 0 → (postCalls (main ops c w).2).length = 101) ∧
    ∀ a ∈ postCalls (main ops c w).2,
      (a.model_in_h = model_height w ∧ a.model_in_w = model_width w ∧
        a.conf_threshold = c.BOX_THRESH ∧ a.nms_threshold = c.NMS_THRESH ∧
        (∃ img, load_image w.stbi_load (input_attrs w 0) = some img ∧
          a.scale_w = main_scale_w ops w img ∧ a.scale_h = main_scale_h ops w img) ∧
        a.qnt_zps = (collect_qnt w w.n_output 0 ([], [])).2 ∧
        a.qnt_scales = (collect_qnt w w.n_output 0 ([], [])).1) ∧
      ∀ b ∈ postCalls (main ops c w).2,
        b.model_in_h = a.model_in_h ∧ b.model_in_w = a.model_in_w ∧
        b.conf_threshold = a.conf_threshold ∧ b.nms_threshold = a.nms_threshold ∧
        b.scale_w = a.scale_w ∧ b.scale_h = a.scale_h ∧
        b.qnt_zps = a.qnt_zps ∧ b.qnt_scales = a.qnt_scales := by
  constructor
  · intro h0
    rcases main_cases ops c w with ⟨h1, _⟩ | ⟨img, _, _, hp, _⟩
    · rw [h0] at h1; cases h1
    · rw [hp]; simp [test_count]
  · intro a ha
    obtain ⟨img, himg, hae, _⟩ := mem_postCalls_main ops c w a ha
    subst hae
    refine ⟨⟨rfl, rfl, rfl, rfl, ⟨img, himg, rfl, rfl⟩, rfl, rfl⟩, ?_⟩
    intro b hb
    obtain ⟨img2, himg2, hbe, _⟩ := mem_postCalls_main ops c w b hb
    rw [himg] at himg2
    cases himg2
    subst hbe
    exact ⟨rfl, rfl, rfl, rfl, rfl, rfl, rfl, rfl⟩

/-- Witness of C4: the zero-copy sample run. -/
theorem main_post_process_arguments_witness :
    (postCalls (main ratOps ratConsts (sample_world 1 3 0)).2).length = 101 ∧
    (post_args ratOps ratConsts (sample_world 1 3 0) sample_loaded).conf_threshold
      = ratConsts.BOX_THRESH ∧
    (post_args ratOps ratConsts (sample_world 1 3 0) sample_loaded).nms_threshold
      = ratConsts.NMS_THRESH :=
  ⟨(main_post_process_arguments ratOps ratConsts (sample_world 1 3 0)).1
      (main_sample 1 3 0).1,
   ((main_post_process_arguments ratOps ratConsts (sample_world 1 3 0)).2 _
      (mem_postCalls_sample 1 3 0)).1.2.2.1,
   ((main_post_process_arguments ratOps ratConsts (sample_world 1 3 0)).2 _
      (mem_postCalls_sample 1 3 0)).1.2.2.2.1⟩

/-- C8, the code at the failing input: every `rknn_query` for an output
attribute returns `-1`, yet `main` returns `0` after 101 calls of `rknn_run`
and 101 calls of `post_process`. -/
theorem main_ignores_output_query_status :
    (∀ i, ((sample_world 0 3 (-1)).query_output_attr i).1 < 0) ∧
    (main ratOps ratConsts (sample_world 0 3 (-1))).1 = 0 ∧
    runCount (main ratOps ratConsts (sample_world 0 3 (-1))).2 = 101 ∧
    (postCalls (main ratOps ratConsts (sample_world 0 3 (-1))).2).length = 101 := by
  refine ⟨fun i => by show (-1 : Int) < 0; decide, (main_sample 0 3 (-1)).1, ?_, ?_⟩
  · rw [(main_sample 0 3 (-1)).2.2]; rfl
  · rw [(main_sample 0 3 (-1)).2.1]; simp [test_count]

set_option maxRecDepth 100000 in
/-- C9, the code at the failing input: in both modes of the sample run a call
that takes `ctx` follows `rknn_destroy(ctx)`, and the first call after it is
`rknn_destroy_mem(ctx, inputs_mem[0])`. -/
theorem main_uses_ctx_after_destroy :
    ctxUsedAfterDestroy (main ratOps ratConsts (sample_world 0 3 0)).2 = true ∧
    ctxUsedAfterDestroy (main ratOps ratConsts (sample_world 1 3 0)).2 = true := by
  constructor <;> decide

/-- C10: for every input attribute, if `load_image` returns non-NULL then the
format is NCHW or NHWC, the `(width, height)` that `main` selects equals the
`(req_width, req_height)` of `load_image` (`dims[0]`, `dims[1]` for NCHW and
`dims[1]`, `dims[2]` for NHWC), and that pair is the destination size of the
resize and the size passed to every `post_process` call; for any other format
`main` returns `-1` without a call of `rknn_run`. -/
theorem main_size_agrees_with_load_image {F : Type} (ops : FloatOps F) (c : Consts F)
    (w : World F) :
    (∀ img, load_image w.stbi_load (input_attrs w 0) = some img →
      ((input_attrs w 0).fmt = rknn_tensor_format.RKNN_TENSOR_NCHW ∨
        (input_attrs w 0).fmt = rknn_tensor_format.RKNN_TENSOR_NHWC) ∧
      ∃ r, load_image_req (input_attrs w 0) = some r ∧
        model_width w = r.req_width ∧ model_height w = r.req_height ∧
        ((input_attrs w 0).fmt = rknn_tensor_format.RKNN_TENSOR_NCHW →
          r.req_width = int_of_uint32 ((input_attrs w 0).dims 0) ∧
          r.req_height = int_of_uint32 ((input_attrs w 0).dims 1)) ∧
        ((input_attrs w 0).fmt = rknn_tensor_format.RKNN_TENSOR_NHWC →
          r.req_width = int_of_uint32 ((input_attrs w 0).dims 1) ∧
          r.req_height = int_of_uint32 ((input_attrs w 0).dims 2)) ∧
        (∀ s ∈ resizeCalls (main ops c w).2, s.2 = (r.req_width, r.req_height)) ∧
        (∀ a ∈ postCalls (main ops c w).2,
          a.model_in_w = r.req_width ∧ a.model_in_h = r.req_height)) ∧
    (∀ raw, (input_attrs w 0).fmt = rknn_tensor_format.other raw →
      (main ops c w).1 = -1 ∧ runCount (main ops c w).2 = 0 ∧
      postCalls (main ops c w).2 = []) := by
  constructor
  · intro img himg
    have hsize : ∀ s ∈ resizeCalls (main ops c w).2, s.2 = (model_width w, model_height w) := by
      intro s hs
      rcases main_cases ops c w with ⟨_, _, _, h0⟩ | ⟨img2, _, _, _, _, hr⟩
      · rw [h0] at hs; cases hs
      · rw [hr] at hs
        rw [List.mem_singleton.mp hs]
    have hpost : ∀ a ∈ postCalls (main ops c w).2,
        a.model_in_w = model_width w ∧ a.model_in_h = model_height w := by
      intro a ha
      obtain ⟨img2, _, hae, _⟩ := mem_postCalls_main ops c w a ha
      subst hae
      exact ⟨rfl, rfl⟩
    unfold load_image at himg
    cases hfmt : (input_attrs w 0).fmt with
    | RKNN_TENSOR_NCHW =>
      have hreq : load_image_req (input_attrs w 0)
          = some { req_height := int_of_uint32 ((input_attrs w 0).dims 1)
                   req_width := int_of_uint32 ((input_attrs w 0).dims 0)
                   req_channel := int_of_uint32 ((input_attrs w 0).dims 2) } := by
        simp [load_image_req, hfmt]
      have hw : model_width w = int_of_uint32 ((input_attrs w 0).dims 0) := by
        simp [model_width, hfmt]
      have hh : model_height w = int_of_uint32 ((input_attrs w 0).dims 1) := by
        simp [model_height, hfmt]
      refine ⟨Or.inl rfl, _, hreq, hw, hh, ?_, ?_, ?_, ?_⟩
      · intro _; exact ⟨rfl, rfl⟩
      · intro hc; cases hc
      · intro s hs; rw [hsize s hs, hw, hh]
      · intro a ha; rw [(hpost a ha).1, (hpost a ha).2, hw, hh]; exact ⟨rfl, rfl⟩
    | RKNN_TENSOR_NHWC =>
      have hreq : load_image_req (input_attrs w 0)
          = some { req_height := int_of_uint32 ((input_attrs w 0).dims 2)
                   req_width := int_of_uint32 ((input_attrs w 0).dims 1)
                   req_channel := int_of_uint32 ((input_attrs w 0).dims 0) } := by
        simp [load_image_req, hfmt]
      have hw : model_width w = int_of_uint32 ((input_attrs w 0).dims 1) := by
        simp [model_width, hfmt]
      have hh : model_height w = int_of_uint32 ((input_attrs w 0).dims 2) := by
        simp [model_height, hfmt]
      refine ⟨Or.inr rfl, _, hreq, hw, hh, ?_, ?_, ?_, ?_⟩
      · intro hc; cases hc
      · intro _; exact ⟨rfl, rfl⟩
      · intro s hs; rw [hsize s hs, hw, hh]
      · intro a ha; rw [(hpost a ha).1, (hpost a ha).2, hw, hh]; exact ⟨rfl, rfl⟩
    | other raw =>
      have hreq : load_image_req (input_attrs w 0) = none := by
        simp [load_image_req, hfmt]
      rw [hreq] at himg
      cases himg
  · intro raw hfmt
    have hnone : load_image w.stbi_load (input_attrs w 0) = none := by
      simp [load_image, load_image_req, hfmt]
    rcases main_cases ops c w with ⟨h1, h2, h3, _⟩ | ⟨img, himg, _⟩
    · exact ⟨h1, h3, h2⟩
    · rw [hnone] at himg; cases himg

/-- Witness of C10: the sample run (NHWC, 640 x 640) for the first part, a
run whose input attribute has another layout for the second. -/
theorem main_size_agrees_with_load_image_witness :
    (((input_attrs (sample_world 0 3 0) 0).fmt = rknn_tensor_format.RKNN_TENSOR_NCHW ∨
        (input_attrs (sample_world 0 3 0) 0).fmt = rknn_tensor_format.RKNN_TENSOR_NHWC) ∧
      ∃ r, load_image_req (input_attrs (sample_world 0 3 0) 0) = some r ∧
        model_width (sample_world 0 3 0) = r.req_width ∧
        model_height (sample_world 0 3 0) = r.req_height ∧
        ((input_attrs (sample_world 0 3 0) 0).fmt = rknn_tensor_format.RKNN_TENSOR_NCHW →
          r.req_width = int_of_uint32 ((input_attrs (sample_world 0 3 0) 0).dims 0) ∧
          r.req_height = int_of_uint32 ((input_attrs (sample_world 0 3 0) 0).dims 1)) ∧
        ((input_attrs (sample_world 0 3 0) 0).fmt = rknn_tensor_format.RKNN_TENSOR_NHWC →
          r.req_width = int_of_uint32 ((input_attrs (sample_world 0 3 0) 0).dims 1) ∧
          r.req_height = int_of_uint32 ((input_attrs (sample_world 0 3 0) 0).dims 2)) ∧
        (∀ s ∈ resizeCalls (main ratOps ratConsts (sample_world 0 3 0)).2,
          s.2 = (r.req_width, r.req_height)) ∧
        (∀ a ∈ postCalls (main ratOps ratConsts (sample_world 0 3 0)).2,
          a.model_in_w = r.req_width ∧ a.model_in_h = r.req_height)) ∧
    ((main ratOps ratConsts odd_world).1 = -1 ∧
      runCount (main ratOps ratConsts odd_world).2 = 0 ∧
      postCalls (main ratOps ratConsts odd_world).2 = []) :=
  ⟨(main_size_agrees_with_load_image ratOps ratConsts (sample_world 0 3 0)).1 sample_loaded
      (load_image_sample 0 3 0),
   (main_size_agrees_with_load_image ratOps ratConsts odd_world).2 2 rfl⟩

/-! ## Non-max suppression -/

theorem intersection_comm (a b : Box) : intersection a b = intersection b a := by
  unfold intersection
  rw [min_comm a.right, max_comm a.left, min_comm a.bottom, max_comm a.top]

theorem IoU_comm (a b : Box) : IoU a b = IoU b a := by
  unfold IoU
  rw [intersection_comm a b, add_comm a.area]

theorem greedy_select_nil (t : ℚ) : greedy_select t [] = [] := by
  rw [greedy_select]

theorem greedy_select_cons (t : ℚ) (c : Candidate) (rest : List Candidate) :
    greedy_select t (c :: rest) =
      c :: greedy_select t (rest.filter (fun d => decide (¬ t < IoU c.box d.box))) := by
  rw [greedy_select]

/-- What the greedy selection keeps comes from its input. -/
theorem mem_of_mem_greedy_select (t : ℚ) :
    ∀ (n : Nat) (l : List Candidate), l.length ≤ n → ∀ x ∈ greedy_select t l, x ∈ l := by
  intro n
  induction n with
  | zero =>
    intro l hl x hx
    have : l = [] := List.length_eq_zero.mp (Nat.le_zero.mp hl)
    subst this
    rw [greedy_select_nil] at hx
    exact hx
  | succ n ih =>
    intro l hl x hx
    cases l with
    | nil => rw [greedy_select_nil] at hx; exact hx
    | cons c rest =>
      rw [greedy_select_cons] at hx
      rcases List.mem_cons.mp hx with h | h
      · rw [h]; exact List.mem_cons_self _ _
      · have hlen : (rest.filter (fun d => decide (¬ t < IoU c.box d.box))).length ≤ n :=
          Nat.le_trans (List.length_filter_le _ _) (Nat.le_of_succ_le_succ hl)
        have hmem := ih _ hlen x h
        exact List.mem_cons_of_mem _ (List.mem_of_mem_filter hmem)

/-- No candidate kept by the greedy selection overlaps an earlier kept one
above the threshold. -/
theorem pairwise_greedy_select (t : ℚ) :
    ∀ (n : Nat) (l : List Candidate), l.length ≤ n →
      List.Pairwise (fun x y => IoU x.box y.box ≤ t) (greedy_select t l) := by
  intro n
  induction n with
  | zero =>
    intro l hl
    have : l = [] := List.length_eq_zero.mp (Nat.le_zero.mp hl)
    subst this
    rw [greedy_select_nil]
    exact List.Pairwise.nil
  | succ n ih =>
    intro l hl
    cases l with
    | nil => rw [greedy_select_nil]; exact List.Pairwise.nil
    | cons c rest =>
      rw [greedy_select_cons]
      have hlen : (rest.filter (fun d => decide (¬ t < IoU c.box d.box))).length ≤ n :=
        Nat.le_trans (List.length_filter_le _ _) (Nat.le_of_succ_le_succ hl)
      refine List.Pairwise.cons ?_ (ih _ hlen)
      intro y hy
      have hmem := mem_of_mem_greedy_select t n _ hlen y hy
      have hkeep := (List.mem_filter.mp hmem).2
      exact not_lt.mp (of_decide_eq_true hkeep)

/-- Every candidate of a suppressed group belongs to the group. -/
theorem mem_of_mem_nms_group (t : ℚ) (group : List Candidate) (x : Candidate)
    (hx : x ∈ nms_group t group) : x ∈ group := by
  unfold nms_group sort_by_confidence at hx
  have h := mem_of_mem_greedy_select t _ _ (Nat.le_refl _) x hx
  exact (List.mem_insertionSort _).mp h

/-- Kept candidates of one class, one earlier than the other in the output,
do not overlap above the threshold. -/
theorem pairwise_nms (t : ℚ) (cands : List Candidate) :
    List.Pairwise (fun x y => x.cls = y.cls → IoU x.box y.box ≤ t) (nms t cands) := by
  unfold nms
  rw [List.pairwise_flatMap]
  constructor
  · intro k _
    unfold nms_group
    have h := pairwise_greedy_select t _
      (sort_by_confidence (cands.filter (fun c => decide (c.cls = k)))) (Nat.le_refl _)
    refine List.Pairwise.imp ?_ h
    intro a b hab _
    exact hab
  · have hnodup : (class_labels cands).Nodup := List.nodup_dedup _
    refine List.Pairwise.imp ?_ hnodup
    intro k₁ k₂ hne x hx y hy hcls
    have hx1 := (List.mem_filter.mp (mem_of_mem_nms_group t _ x hx)).2
    have hy1 := (List.mem_filter.mp (mem_of_mem_nms_group t _ y hy)).2
    have e1 : x.cls = k₁ := of_decide_eq_true hx1
    have e2 : y.cls = k₂ := of_decide_eq_true hy1
    exact absurd (e1.symm.trans (hcls.trans e2)) hne

/-- The two candidates of `touching_pair` are both kept at the threshold 1/2. -/
theorem nms_touching_pair : nms (1 / 2) touching_pair = touching_pair := by
  have hiou : IoU (Box.mk 0 0 2 2) (Box.mk 0 0 1 2) = 1 / 2 := by
    norm_num [IoU, intersection, Box.area]
  have hl : class_labels touching_pair = [0] := by decide
  have hsort : sort_by_confidence touching_pair = touching_pair := by
    simp [sort_by_confidence, touching_pair, List.insertionSort, List.orderedInsert]
    norm_num
  unfold nms nms_group
  rw [hl]
  simp only [List.flatMap_cons, List.flatMap_nil, List.append_nil]
  have hf : touching_pair.filter (fun c => decide (c.cls = 0)) = touching_pair := by
    simp [touching_pair]
  rw [hf, hsort]
  unfold touching_pair
  rw [greedy_select_cons]
  simp only [List.filter_cons, hiou]
  norm_num [greedy_select_cons, greedy_select_nil]

/-- Counterexample to C5: two candidates of one class with IoU exactly 1/2 are
both kept at the threshold 1/2, and their IoU is not below the threshold. -/
theorem nms_keeps_pair_at_threshold :
    ∃ A ∈ nms (1 / 2) touching_pair, ∃ B ∈ nms (1 / 2) touching_pair,
      A ≠ B ∧ A.cls = B.cls ∧ ¬ IoU A.box B.box < 1 / 2 := by
  rw [nms_touching_pair]
  refine ⟨_, List.mem_cons_self _ _, _, List.mem_cons_of_mem _ (List.mem_cons_self _ _), ?_, rfl, ?_⟩
  · intro h
    have := congrArg (fun c => c.box.right) h
    norm_num at this
  · norm_num [IoU, intersection, Box.area]

/-- C5, amended: for every list of candidates and every NMS threshold, any two
different entries of the kept list that have the same class satisfy
`IoU(A, B) ≤ τ_nms`; entries of different classes are exempt. -/
theorem nms_kept_pairs (t : ℚ) (cands : List Candidate) (i j : Nat)
    (hi : i < (nms t cands).length) (hj : j < (nms t cands).length) (hij : i ≠ j)
    (hcls : ((nms t cands).get ⟨i, hi⟩).cls = ((nms t cands).get ⟨j, hj⟩).cls) :
    IoU ((nms t cands).get ⟨i, hi⟩).box ((nms t cands).get ⟨j, hj⟩).box ≤ t := by
  have hp := List.pairwise_iff_get.mp (pairwise_nms t cands)
  rcases Nat.lt_or_gt_of_ne hij with h | h
  · exact hp ⟨i, hi⟩ ⟨j, hj⟩ h hcls
  · rw [IoU_comm]
    exact hp ⟨j, hj⟩ ⟨i, hi⟩ h hcls.symm

/-- Witness of C5, amended: the two kept candidates of `touching_pair`. -/
theorem nms_kept_pairs_witness :
    ∃ (h0 : 0 < (nms (1 / 2) touching_pair).length) (h1 : 1 < (nms (1 / 2) touching_pair).length),
      IoU ((nms (1 / 2) touching_pair).get ⟨0, h0⟩).box
        ((nms (1 / 2) touching_pair).get ⟨1, h1⟩).box ≤ 1 / 2 :=
  ⟨by rw [nms_touching_pair]; decide, by rw [nms_touching_pair]; decide,
    nms_kept_pairs (1 / 2) touching_pair 0 1
      (by rw [nms_touching_pair]; decide) (by rw [nms_touching_pair]; decide) (by decide)
      (by
        have key : ∀ (l : List Candidate) (_ : l = touching_pair) (h0 : 0 < l.length)
            (h1 : 1 < l.length), (l.get ⟨0, h0⟩).cls = (l.get ⟨1, h1⟩).cls := by
          intro l e
          subst e
          intro _ _
          rfl
        exact key _ nms_touching_pair _ _)⟩

/-! ## Rescaling to the original picture -/

/-- Counterexample to C7: in the sample run a raw byte `200` of the first
output buffer reaches `post_process` as the value `200`, which is above 127. -/
theorem main_buffer_value_above_int8 :
    ∃ a ∈ postCalls (main ratOps ratConsts (sample_world 0 3 0)).2,
      read_input (fun _ => [200]) a.input0 0 = 200 ∧
      ¬ (-128 ≤ read_input (fun _ => [200]) a.input0 0 ∧
          read_input (fun _ => [200]) a.input0 0 ≤ 127) :=
  ⟨_, mem_postCalls_sample 0 3 0, by decide, by decide⟩

/-- C7, amended: at every call of `post_process` in `main` each of the three
output buffers is passed through a cast to `uint8_t *`, so every element is
interpreted as an unsigned 8-bit integer: for every raw byte the value
post-processing receives is the byte itself modulo 256 and lies in
`[0, 255]`. -/
theorem main_buffers_are_uint8 {F : Type} (ops : FloatOps F) (c : Consts F) (w : World F)
    (a : PostProcessArgs F) (h : a ∈ postCalls (main ops c w).2)
    (mem : BufRef → List Nat) (k : Nat) :
    (a.input0.elem = ElemType.uint8_t ∧ a.input1.elem = ElemType.uint8_t ∧
      a.input2.elem = ElemType.uint8_t) ∧
    (read_input mem a.input0 k = (((mem a.input0.buf).getD k 0 % 256 : Nat) : Int) ∧
      0 ≤ read_input mem a.input0 k ∧ read_input mem a.input0 k ≤ 255) ∧
    (read_input mem a.input1 k = (((mem a.input1.buf).getD k 0 % 256 : Nat) : Int) ∧
      0 ≤ read_input mem a.input1 k ∧ read_input mem a.input1 k ≤ 255) ∧
    (read_input mem a.input2 k = (((mem a.input2.buf).getD k 0 % 256 : Nat) : Int) ∧
      0 ≤ read_input mem a.input2 k ∧ read_input mem a.input2 k ≤ 255) := by
  obtain ⟨img, _, ha, _⟩ := mem_postCalls_main ops c w a h
  subst ha
  have key : ∀ p : TensorPtr, p.elem = ElemType.uint8_t →
      read_input mem p k = (((mem p.buf).getD k 0 % 256 : Nat) : Int) ∧
      0 ≤ read_input mem p k ∧ read_input mem p k ≤ 255 := by
    intro p hp
    have hval : read_input mem p k = (((mem p.buf).getD k 0 % 256 : Nat) : Int) := by
      unfold read_input
      rw [hp]
      rfl
    have hlt : ((mem p.buf).getD k 0) % 256 < 256 := Nat.mod_lt _ (by decide)
    refine ⟨hval, ?_, ?_⟩ <;> rw [hval] <;> omega
  have e0 : (post_args ops c w img).input0.elem = ElemType.uint8_t := by
    unfold post_args; dsimp only; split <;> rfl
  have e1 : (post_args ops c w img).input1.elem = ElemType.uint8_t := by
    unfold post_args; dsimp only; split <;> rfl
  have e2 : (post_args ops c w img).input2.elem = ElemType.uint8_t := by
    unfold post_args; dsimp only; split <;> rfl
  exact ⟨⟨e0, e1, e2⟩, key _ e0, key _ e1, key _ e2⟩

/-- Witness of C7, amended: the sample run with the byte `200` behind the
third buffer. -/
theorem main_buffers_are_uint8_witness :
    (post_args ratOps ratConsts (sample_world 0 3 0) sample_loaded).input2.elem
      = ElemType.uint8_t ∧
    0 ≤ read_input (fun _ => [200])
          (post_args ratOps ratConsts (sample_world 0 3 0) sample_loaded).input2 0 ∧
    read_input (fun _ => [200])
          (post_args ratOps ratConsts (sample_world 0 3 0) sample_loaded).input2 0 ≤ 255 :=
  ⟨(main_buffers_are_uint8 ratOps ratConsts (sample_world 0 3 0) _ (mem_postCalls_sample 0 3 0)
      (fun _ => [200]) 0).1.2.2,
   (main_buffers_are_uint8 ratOps ratConsts (sample_world 0 3 0) _ (mem_postCalls_sample 0 3 0)
      (fun _ => [200]) 0).2.2.2.2.1,
   (main_buffers_are_uint8 ratOps ratConsts (sample_world 0 3 0) _ (mem_postCalls_sample 0 3 0)
      (fun _ => [200]) 0).2.2.2.2.2⟩

/-! ## Claims about the reported boxes -/

end Rknpu
